import Mathlib

/-!
Verification development for a 2D polygon boolean engine
(Martinez–Rueda-style sweep line over two input polygons).

The definitions below are a shallow embedding of the program's source:
coordinates are embedded as exact rationals (`ℚ`); every function mirrors
the corresponding source function line by line.  Code paths that panic in
the source (`expect`, `unwrap`, out-of-range `HashMap`/`Vec` indexing) are
embedded as `Option`/`Except` failures where they are reachable; loops that
the source runs until a queue drains are given explicit fuel.
NaN-sensitive float behaviour is embedded separately at the end of the
file with an `Option ℚ` coordinate type (`none` standing for NaN).
-/

set_option maxRecDepth 100000

deriving instance DecidableEq for Except

namespace PolyClip

/-- 2D vector with exact rational coordinates (embedding of `glam::Vec2`). -/
structure Vec2 where
  x : ℚ
  y : ℚ
deriving DecidableEq, Repr, Inhabited

def Vec2.sub (a b : Vec2) : Vec2 := ⟨a.x - b.x, a.y - b.y⟩

def Vec2.add (a b : Vec2) : Vec2 := ⟨a.x + b.x, a.y + b.y⟩

def Vec2.scale (s : ℚ) (a : Vec2) : Vec2 := ⟨s * a.x, s * a.y⟩

/-- `glam` perp_dot: `a.x*b.y - a.y*b.x`. -/
def Vec2.perp_dot (a b : Vec2) : ℚ := a.x * b.y - a.y * b.x

def Vec2.dot (a b : Vec2) : ℚ := a.x * b.x + a.y * b.y

def Vec2.length_squared (a : Vec2) : ℚ := a.dot a

/-- Componentwise min (`glam::Vec2::min`). -/
def Vec2.vmin (a b : Vec2) : Vec2 := ⟨min a.x b.x, min a.y b.y⟩

/-- Componentwise max (`glam::Vec2::max`). -/
def Vec2.vmax (a b : Vec2) : Vec2 := ⟨max a.x b.x, max a.y b.y⟩

/-- Three-way comparison of rationals. On non-NaN floats the source's
`partial_cmp` is exactly this total comparison. -/
def qcmp (a b : ℚ) : Ordering :=
  if a < b then .lt else if b < a then .gt else .eq

/-- Three-way comparison of booleans, `false < true`, as in Rust's
`Ord for bool`. -/
def bcmp (a b : Bool) : Ordering :=
  match a, b with
  | false, true => .lt
  | true, false => .gt
  | _, _ => .eq

/-- Three-way comparison of naturals, as in Rust's `Ord for usize`. -/
def ncmp (a b : Nat) : Ordering :=
  if a < b then .lt else if b < a then .gt else .eq

/-- A polygon: a list of contours, each an implicitly closed point list. -/
structure Polygon where
  contours : List (List Vec2)
deriving DecidableEq, Repr, Inhabited

/-- `Polygon::compute_bounds`: folds all vertices into a `(min, max)`
bounding box; `none` when there are no vertices. -/
def Polygon.compute_bounds (p : Polygon) : Option (Vec2 × Vec2) :=
  p.contours.flatten.foldl
    (fun bounds point =>
      some (match bounds with
        | none => (point, point)
        | some (lo, hi) => (lo.vmin point, hi.vmax point)))
    none

/-- The source tag of an edge: which input polygon, contour and edge it
came from (`SourceEdge` in the source). -/
structure SourceEdge where
  is_from_subject : Bool := false
  contour : Nat := 0
  edge : Nat := 0
deriving DecidableEq, Repr, Inhabited

/-- The result of a boolean operation (`BooleanResult` in the source). -/
structure BooleanResult where
  polygon : Polygon
  contour_source_edges : List (List SourceEdge)
deriving DecidableEq, Repr, Inhabited

/-- The four boolean operations. -/
inductive Operation where
  | Intersection
  | Union
  | XOR
  | Difference
deriving DecidableEq, Repr, Inhabited

/-! ## util.rs : segment intersection -/

inductive EdgeIntersectionResult where
  | NoIntersection
  | PointIntersection (point : Vec2)
  | LineIntersection (start_point stop_point : Vec2)
deriving DecidableEq, Repr, Inhabited

/-- `util::edge_intersection`, the Schneider/Eberly segment intersection.
Divisions only occur under guards that make the divisor nonzero, so the
rational embedding is exact. -/
def edge_intersection (line_1 line_2 : Vec2 × Vec2) : EdgeIntersectionResult :=
  let line_1_vector := line_1.2.sub line_1.1
  let line_2_vector := line_2.2.sub line_2.1
  let relative_start := line_2.1.sub line_1.1
  let cross := line_1_vector.perp_dot line_2_vector
  let cross_squared := cross * cross
  if cross_squared > 0 then
    -- Line segments are not parallel: point intersection or nothing.
    let s := relative_start.perp_dot line_2_vector / cross
    if s < 0 ∨ 1 < s then .NoIntersection
    else
      let t := relative_start.perp_dot line_1_vector / cross
      if t < 0 ∨ 1 < t then .NoIntersection
      else if (s = 0 ∨ s = 1) ∧ (t = 0 ∨ t = 1) then .NoIntersection
      else .PointIntersection (line_1.1.add (Vec2.scale s line_1_vector))
  else
    let cross2 := relative_start.perp_dot line_1_vector
    if |cross2| > 0 then .NoIntersection
    else
      let line_1_len_squared := line_1_vector.length_squared
      let sa := relative_start.dot line_1_vector / line_1_len_squared
      let sb := sa + line_1_vector.dot line_2_vector / line_1_len_squared
      let smin := min sa sb
      let smax := max sa sb
      if smax ≤ 0 ∨ 1 ≤ smin then .NoIntersection
      else
        .LineIntersection (line_1.1.add (Vec2.scale (max smin 0) line_1_vector))
          (line_1.1.add (Vec2.scale (min smax 1) line_1_vector))

/-! ## Events and their orderings -/

/-- One endpoint of an edge (`Event` in the source). Immutable. -/
structure Event where
  event_id : Nat
  point : Vec2
  left : Bool
  is_subject : Bool
  other_point : Vec2
deriving DecidableEq, Repr, Inhabited

/-- `lex_order_points`: compare by x then y. The source panics when a
coordinate is NaN; `ℚ` has no NaN, so the comparison is total here. -/
def lex_order_points (a b : Vec2) : Ordering :=
  match qcmp a.x b.x with
  | .eq => qcmp a.y b.y
  | ord => ord

/-- `point_relative_to_line`: whether `point` is above (`gt`) or below
(`lt`) the line through `a` and `b` (reversed if `b` is left of `a`). -/
def point_relative_to_line (a b point : Vec2) : Ordering :=
  qcmp 0 ((b.sub a).perp_dot (point.sub a))

/-- `Event::is_vertical`. -/
def Event.is_vertical (e : Event) : Bool := e.point.x = e.other_point.x

/-- The event-queue ordering (`PartialOrd for Event` in the source; the
source wraps events in `Reverse` so the heap pops the *least* event). -/
def Event.cmp (self other : Event) : Ordering :=
  -- The first thing that matters is the order of points.
  match lex_order_points self.point other.point with
  | .eq =>
    -- Prefer right events to left events.
    match bcmp self.left other.left with
    | .eq =>
      -- Prefer horizontal edges to vertical edges.
      match bcmp self.is_vertical other.is_vertical with
      | .eq =>
        -- Prefer the line which slopes above the other one.
        match point_relative_to_line self.point self.other_point
            other.other_point with
        | .eq =>
          -- Prefer subject edges over clip edges.
          match bcmp self.is_subject other.is_subject with
          | .eq => ncmp self.event_id other.event_id
          | ord => ord.swap
        | ord => if self.left then ord else ord.swap
      | ord => ord
    | ord => ord
  | ord => ord

/-- `SweepLineEvent::is_colinear`. -/
def sweep_is_colinear (self other : Event) : Bool :=
  point_relative_to_line self.point self.other_point other.point = .eq
    ∧ point_relative_to_line self.point self.other_point other.other_point = .eq

/-- The sweep-line ordering (`PartialOrd for SweepLineEvent`). The
`unreachable!()` arm of the source (equal events with different left
points) is dead here as well: `Event.cmp` returns `.eq` only when the
points are lexicographically equal. -/
def sweep_cmp (self other : Event) : Ordering :=
  if sweep_is_colinear self other then Event.cmp self other
  else if self.point.x = other.point.x then
    match qcmp self.point.y other.point.y with
    | .eq =>
      point_relative_to_line self.point self.other_point other.other_point
    | ord => ord
  else
    match Event.cmp self other with
    | .eq => .eq  -- dead branch, `unreachable!()` in the source
    | .gt =>
      (point_relative_to_line other.point other.other_point self.point).swap
    | .lt => point_relative_to_line self.point self.other_point other.point

/-! ## Event relations -/

/-- The coincidence tag of an edge (`EdgeCoincidenceType`). -/
inductive EdgeCoincidenceType where
  | NoCoincidence
  | SameTransition
  | DifferentTransition
  | DuplicateCoincidence
deriving DecidableEq, Repr, Inhabited

/-- `EdgeCoincidenceType::in_result`. The source panics on
`NoCoincidence`; that arm is `none` here. -/
def EdgeCoincidenceType.in_result :
    EdgeCoincidenceType → Operation → Option Bool
  | .NoCoincidence, _ => none
  | .DuplicateCoincidence, _ => some false
  | .SameTransition, operation =>
      some (operation = Operation.Intersection ∨ operation = Operation.Union)
  | .DifferentTransition, operation =>
      some (operation = Operation.Difference)

/-- The mutable per-event record (`EventRelation`), with the same
`Default` values as the source. -/
structure EventRelation where
  sibling_id : Nat := 0
  sibling_point : Vec2 := ⟨0, 0⟩
  in_out : Bool := false
  other_in_out : Bool := false
  in_result : Bool := false
  prev_in_result : Option Nat := none
  edge_coincidence_type : EdgeCoincidenceType := .NoCoincidence
  source_edge : SourceEdge := {}
deriving DecidableEq, Repr, Inhabited

/-- Read `event_relations[i]` (all reads in the algorithm are in bounds;
out-of-range reads, which would panic in the source, return junk). -/
def rel (event_relations : List EventRelation) (i : Nat) : EventRelation :=
  event_relations.getD i default

/-- Write `event_relations[i]` through an update function. -/
def updr (event_relations : List EventRelation) (i : Nat)
    (f : EventRelation → EventRelation) : List EventRelation :=
  event_relations.set i (f (rel event_relations i))

/-- `Event::in_result` (the non-coincident table, deferring to the
coincidence table otherwise). The source can only panic when
`edge_coincidence_type` is `NoCoincidence`, which is excluded by the
branch, so `getD false` below is never the result. -/
def Event.in_result (self : Event) (relation : EventRelation)
    (operation : Operation) : Bool :=
  if relation.edge_coincidence_type ≠ EdgeCoincidenceType.NoCoincidence then
    (relation.edge_coincidence_type.in_result operation).getD false
  else
    match operation with
    | .Intersection => !relation.other_in_out
    | .Union => relation.other_in_out
    | .Difference => self.is_subject = relation.other_in_out
    | .XOR => true

/-- `Event::result_in_out`. -/
def Event.result_in_out (self : Event) (relation : EventRelation)
    (operation : Operation) : Bool :=
  let is_inside_self := !relation.in_out
  let is_inside_other := !relation.other_in_out
  let result_out_in :=
    match operation with
    | .Intersection => is_inside_self && is_inside_other
    | .Union => is_inside_self || is_inside_other
    | .Difference =>
        if self.is_subject then is_inside_self && !is_inside_other
        else !is_inside_self && is_inside_other
    | .XOR => is_inside_self != is_inside_other
  !result_out_in

/-! ## Event generation (`create_events_for_polygon`)

The source pushes events into a `BinaryHeap` wrapped in `Reverse`; the heap
is embedded as a bag (a `List`) whose pop extracts the minimum under
`Event.cmp`, which is the heap's observable behaviour (the minimum is
unique because event ids are distinct). -/

/-- Events and relations created for one contour edge `p1 → p2`
(degenerate edges are dropped). -/
def create_events_for_polygon (polygon : Polygon) (is_subject : Bool)
    (event_queue : List Event) (event_relations : List EventRelation) :
    List Event × List EventRelation :=
  polygon.contours.enum.foldl
    (fun state (contour_index, contour) =>
      (List.range contour.length).foldl
        (fun (state : List Event × List EventRelation) point_index =>
          let (event_queue, event_relations) := state
          let next_point_index :=
            if point_index = contour.length - 1 then 0 else point_index + 1
          let point_1 := contour.getD point_index default
          let point_2 := contour.getD next_point_index default
          match lex_order_points point_1 point_2 with
          | .eq => state  -- Ignore degenerate edges.
          | ord =>
            let event_1_left := ord = Ordering.lt
            let event_2_left := ord = Ordering.gt
            let event_id_1 := event_relations.length
            let event_id_2 := event_relations.length + 1
            let event_queue := event_queue ++
              [⟨event_id_1, point_1, event_1_left, is_subject, point_2⟩,
               ⟨event_id_2, point_2, event_2_left, is_subject, point_1⟩]
            let event_relations := event_relations ++
              [{ sibling_id := event_id_2, sibling_point := point_2,
                 source_edge := ⟨is_subject, contour_index, point_index⟩ },
               { sibling_id := event_id_1, sibling_point := point_1,
                 source_edge := ⟨is_subject, contour_index, point_index⟩ }]
            (event_queue, event_relations))
        state)
    (event_queue, event_relations)

/-! ## Edge splitting and intersection checking -/

/-- `split_edge`: split the edge of `edge_event` at `point`, appending two
fresh events and relinking siblings. Returns the new queue, relations and
the id of the new left event. -/
def split_edge (edge_event : Event) (point : Vec2)
    (event_queue : List Event) (event_relations : List EventRelation) :
    List Event × List EventRelation × Nat :=
  let sibling_id := (rel event_relations edge_event.event_id).sibling_id
  let sibling_point := (rel event_relations edge_event.event_id).sibling_point
  let source_edge := (rel event_relations edge_event.event_id).source_edge
  let split_1_id := event_relations.length
  let split_2_id := event_relations.length + 1
  let event_queue := event_queue ++
    [⟨split_1_id, point, false, edge_event.is_subject, edge_event.point⟩,
     ⟨split_2_id, point, true, edge_event.is_subject, edge_event.other_point⟩]
  let event_relations := event_relations ++
    [{ sibling_id := edge_event.event_id, sibling_point := edge_event.point,
       source_edge := source_edge },
     { sibling_id := sibling_id, sibling_point := sibling_point,
       source_edge := source_edge }]
  let event_relations := updr event_relations edge_event.event_id
    (fun r => { r with sibling_id := split_1_id, sibling_point := point })
  let event_relations := updr event_relations sibling_id
    (fun r => { r with sibling_id := split_2_id, sibling_point := point })
  (event_queue, event_relations, split_2_id)

/-- The tail of `check_for_intersection`'s `LineIntersection` arm
(source lines 643–701): fix `prev_in_result`, choose the primary and the
duplicate coincident fragment, prefer the subject's source tag, and set
the coincidence types and `in_result` flags. -/
def apply_coincidence (new_event existing_event : Event)
    (new_event_coincident_event_id existing_event_coincident_event_id : Nat)
    (event_relations : List EventRelation) (operation : Operation) :
    List EventRelation :=
  let same_transition := (rel event_relations new_event.event_id).in_out
    = (rel event_relations existing_event.event_id).in_out
  -- Their prev_in_result should match (neither is "more important").
  let event_relations := updr event_relations new_event_coincident_event_id
    (fun r => { r with prev_in_result :=
        (rel event_relations existing_event.event_id).prev_in_result })
  let (primary_edge_event_id, duplicate_edge_event_id) :=
    if (rel event_relations existing_event_coincident_event_id).in_result then
      (existing_event_coincident_event_id, new_event_coincident_event_id)
    else
      (new_event_coincident_event_id, existing_event_coincident_event_id)
  -- Prefer the subject edge as the reported source of the primary edge.
  let event_relations :=
    match (rel event_relations new_event.event_id).source_edge.is_from_subject,
        (rel event_relations existing_event.event_id).source_edge.is_from_subject
        with
    | true, true => event_relations
    | false, false => event_relations
    | true, false =>
      let source_edge := (rel event_relations new_event.event_id).source_edge
      let event_relations := updr event_relations primary_edge_event_id
        (fun r => { r with source_edge := source_edge })
      let sibling_id := (rel event_relations primary_edge_event_id).sibling_id
      updr event_relations sibling_id
        (fun r => { r with source_edge := source_edge })
    | false, true =>
      let source_edge :=
        (rel event_relations existing_event.event_id).source_edge
      let event_relations := updr event_relations primary_edge_event_id
        (fun r => { r with source_edge := source_edge })
      let sibling_id := (rel event_relations primary_edge_event_id).sibling_id
      updr event_relations sibling_id
        (fun r => { r with source_edge := source_edge })
  let coincidence_type := if same_transition then
      EdgeCoincidenceType.SameTransition
    else
      EdgeCoincidenceType.DifferentTransition
  -- `coincidence_type` is never `NoCoincidence`, so `in_result` is `some`.
  let event_relations := updr event_relations primary_edge_event_id
    (fun r => { r with edge_coincidence_type := coincidence_type,
                       in_result :=
                         (coincidence_type.in_result operation).getD false })
  updr event_relations duplicate_edge_event_id
    (fun r => { r with edge_coincidence_type :=
                         EdgeCoincidenceType.DuplicateCoincidence,
                       in_result := false })

/-- `check_for_intersection`: intersect the two edges, split them as
needed, and handle a collinear overlap via `apply_coincidence`. -/
def check_for_intersection (new_event existing_event : Event)
    (event_queue : List Event) (event_relations : List EventRelation)
    (operation : Operation) : List Event × List EventRelation :=
  match edge_intersection
      (new_event.point, (rel event_relations new_event.event_id).sibling_point)
      (existing_event.point,
        (rel event_relations existing_event.event_id).sibling_point) with
  | .NoIntersection => (event_queue, event_relations)
  | .PointIntersection point =>
    -- Split the edges, but only if the split point isn't at an end point.
    let (event_queue, event_relations) :=
      if point ≠ new_event.point
          ∧ point ≠ (rel event_relations new_event.event_id).sibling_point then
        let (q, r, _) := split_edge new_event point event_queue event_relations
        (q, r)
      else (event_queue, event_relations)
    let (event_queue, event_relations) :=
      if point ≠ existing_event.point
          ∧ point ≠ (rel event_relations existing_event.event_id).sibling_point
          then
        let (q, r, _) :=
          split_edge existing_event point event_queue event_relations
        (q, r)
      else (event_queue, event_relations)
    (event_queue, event_relations)
  | .LineIntersection start_point end_point =>
    let (event_queue, event_relations, new_event_coincident_event_id) :=
      match decide (start_point = new_event.point),
          decide (end_point
            = (rel event_relations new_event.event_id).sibling_point) with
      | true, true =>
        -- The edge is fully covered, so no new splits are necessary.
        (event_queue, event_relations, new_event.event_id)
      | false, false =>
        let (q, r, _) :=
          split_edge new_event end_point event_queue event_relations
        let (q, r, i) := split_edge new_event start_point q r
        (q, r, i)
      | true, false =>
        let (q, r, _) :=
          split_edge new_event end_point event_queue event_relations
        (q, r, new_event.event_id)
      | false, true =>
        let (q, r, i) :=
          split_edge new_event start_point event_queue event_relations
        (q, r, i)
    let (event_queue, event_relations, existing_event_coincident_event_id) :=
      match decide (start_point = existing_event.point),
          decide (end_point
            = (rel event_relations existing_event.event_id).sibling_point) with
      | true, true =>
        (event_queue, event_relations, existing_event.event_id)
      | false, false =>
        let (q, r, _) :=
          split_edge existing_event end_point event_queue event_relations
        let (q, r, i) := split_edge existing_event start_point q r
        (q, r, i)
      | true, false =>
        let (q, r, _) :=
          split_edge existing_event end_point event_queue event_relations
        (q, r, existing_event.event_id)
      | false, true =>
        let (q, r, i) :=
          split_edge existing_event start_point event_queue event_relations
        (q, r, i)
    (event_queue,
      apply_coincidence new_event existing_event
        new_event_coincident_event_id existing_event_coincident_event_id
        event_relations operation)

/-! ## The subdivider (`subdivide_edges`) -/

/-- `set_information`: compute the flags of a freshly inserted left event
from the previous event in the sweep line. -/
def set_information (event : Event) (event_relation : EventRelation)
    (prev_event : Option (Event × EventRelation)) (operation : Operation) :
    EventRelation :=
  let event_relation :=
    match prev_event with
    | none =>
      -- No previous event: external contour of one of the polygons.
      { event_relation with in_out := false, other_in_out := true }
    | some (prev_event, prev_event_relation) =>
      let event_relation :=
        if event.is_subject = prev_event.is_subject then
          { event_relation with
            in_out := !prev_event_relation.in_out,
            other_in_out := prev_event_relation.other_in_out }
        else
          { event_relation with
            in_out := !prev_event_relation.other_in_out,
            other_in_out :=
              if !prev_event.is_vertical then prev_event_relation.in_out
              else !prev_event_relation.in_out }
      { event_relation with
        prev_in_result :=
          if prev_event_relation.in_result && !prev_event.is_vertical then
            some prev_event.event_id
          else prev_event_relation.prev_in_result }
  { event_relation with
    in_result := event.in_result event_relation operation }

/-- `slice::binary_search_by` (`f elem` compares an element against the
probe): `inl pos` is Rust's `Ok(pos)`, `inr pos` is `Err(pos)`. The fuel
only needs to exceed `log₂ (right - left)`; callers pass the length. -/
def binary_search_go (arr : List Event) (f : Event → Ordering) :
    Nat → Nat → Nat → Sum Nat Nat
  | 0, left, _ => .inr left
  | fuel + 1, left, right =>
    if left < right then
      let mid := left + (right - left) / 2
      match f (arr.getD mid default) with
      | .lt => binary_search_go arr f fuel (mid + 1) right
      | .gt => binary_search_go arr f fuel left mid
      | .eq => .inl mid
    else .inr left

def binary_search (arr : List Event) (f : Event → Ordering) : Sum Nat Nat :=
  binary_search_go arr f (arr.length + 1) 0 arr.length

/-- `order_sibling`: the sweep-line representation of a right event's left
sibling. -/
def order_sibling (event : Event) (event_relation : EventRelation) : Event :=
  ⟨event_relation.sibling_id, event_relation.sibling_point, true,
    event.is_subject, event.point⟩

/-- Pop the minimum event (the observable behaviour of
`BinaryHeap<Reverse<Event>>::pop`; the minimum is unique because event ids
are distinct). -/
def pop_min : List Event → Option (Event × List Event)
  | [] => none
  | e :: rest =>
    let m := rest.foldl
      (fun best x => if Event.cmp x best = Ordering.lt then x else best) e
    some (m, (e :: rest).erase m)

/-- One-pass state of the sweep: the queue, the sweep line, the relation
table and the accumulated result events. -/
structure SweepState where
  event_queue : List Event
  sweep_line : List Event
  event_relations : List EventRelation
  result : List Event
deriving Repr, Inhabited

/-- The body of `subdivide_edges`' `while let` loop, fuelled. `none`
embeds a panic (a failed `expect` on the sweep-line searches). -/
def subdivide_loop (operation : Operation) :
    Nat → SweepState → Option (List Event × List EventRelation)
  | 0, state =>
    match state.event_queue with
    | [] => some (state.result, state.event_relations)
    | _ => none  -- out of fuel (the source loops until the queue drains)
  | fuel + 1, state =>
    match pop_min state.event_queue with
    | none => some (state.result, state.event_relations)
    | some (event, event_queue) =>
      let next : Option SweepState :=
        if event.left then
          match binary_search state.sweep_line
              (fun p => sweep_cmp p event) with
          | .inl _ => none  -- `expect_err("event is new and must be inserted")`
          | .inr pos =>
            let sweep_line := state.sweep_line.insertIdx pos event
            let (event_queue, event_relations) :=
              if pos = 0 then
                (event_queue, updr state.event_relations event.event_id
                  (fun r => set_information event r none operation))
              else
                let prev_event := sweep_line.getD (pos - 1) default
                let event_relations :=
                  updr state.event_relations event.event_id
                    (fun r => set_information event r
                      (some (prev_event, rel state.event_relations
                        prev_event.event_id)) operation)
                check_for_intersection
                  event prev_event event_queue event_relations operation
            -- If the inserted event isn't last, check against the next.
            let (event_queue, event_relations) :=
              if pos + 1 < sweep_line.length then
                check_for_intersection event
                  (sweep_line.getD (pos + 1) default)
                  event_queue event_relations operation
              else (event_queue, event_relations)
            some ⟨event_queue, sweep_line, event_relations, state.result⟩
        else
          -- A right event is in the result iff its left event is.
          let sibling_id := (rel state.event_relations event.event_id).sibling_id
          let event_relations := updr state.event_relations event.event_id
            (fun r =>
              { r with in_result :=
                  (rel state.event_relations sibling_id).in_result })
          match binary_search state.sweep_line
              (fun p => sweep_cmp p
                (order_sibling event (rel event_relations event.event_id))) with
          | .inr _ => none  -- `expect("the left event must have already been inserted")`
          | .inl pos =>
            let sweep_line := state.sweep_line.eraseIdx pos
            let (event_queue, event_relations) :=
              if 0 < pos ∧ pos < sweep_line.length then
                check_for_intersection (sweep_line.getD (pos - 1) default)
                  (sweep_line.getD pos default)
                  event_queue event_relations operation
              else (event_queue, event_relations)
            some ⟨event_queue, sweep_line, event_relations, state.result⟩
      match next with
      | none => none
      | some state =>
        let result :=
          if (rel state.event_relations event.event_id).in_result then
            state.result ++ [event]
          else state.result
        subdivide_loop operation fuel { state with result := result }

/-- `subdivide_edges`: drain the queue, then retain only the events whose
`in_result` flag survived (coincident edges can demote events late). -/
def subdivide_edges (event_queue : List Event)
    (event_relations : List EventRelation) (operation : Operation)
    (fuel : Nat) : Option (List Event × List EventRelation) :=
  (subdivide_loop operation fuel ⟨event_queue, [], event_relations, []⟩).map
    (fun (result, event_relations) =>
      (result.filter (fun e => (rel event_relations e.event_id).in_result),
        event_relations))

/-! ## The contour assembler (`join_contours`)

`HashMap<usize, EventContourFlags>` is embedded as an association list
keyed by event id; the algorithm only ever uses keyed lookups and keyed
mutation (never iteration order), so the embedding is observationally
faithful. -/

/-- Per-event flags used to derive contours (`EventContourFlags`). -/
structure EventContourFlags where
  result_id : Nat := 0
  result_in_out : Bool := false
  contour_id : Nat := 0
  parent_id : Option Nat := none
  processed : Bool := false
  depth : Nat := 0
deriving DecidableEq, Repr, Inhabited

def FlagsMap : Type := List (Nat × EventContourFlags)

/-- `map[&k]` / `map.get(&k)`. -/
def fget (m : FlagsMap) (k : Nat) : Option EventContourFlags :=
  (List.find? (fun p => p.1 = k) m).map Prod.snd

/-- `map.get_mut(&k)` followed by a field update. -/
def fmod (m : FlagsMap) (k : Nat)
    (f : EventContourFlags → EventContourFlags) : FlagsMap :=
  List.map (fun p => if p.1 = k then (p.1, f p.2) else p) m

/-- `compute_depth`: depth and parent contour of a fresh contour, read off
the `prev_in_result` chain. `none` embeds the `HashMap` indexing panic. -/
def compute_depth (event : Event) (event_relations : List EventRelation)
    (event_id_to_contour_flags : FlagsMap) : Option (Nat × Option Nat) :=
  match (rel event_relations event.event_id).prev_in_result with
  | none => some (0, none)
  | some prev_in_result =>
    match fget event_id_to_contour_flags prev_in_result with
    | none => none
    | some prev_contour_flags =>
      if !prev_contour_flags.result_in_out then
        some (prev_contour_flags.depth + 1, some prev_contour_flags.contour_id)
      else
        some (prev_contour_flags.depth, prev_contour_flags.parent_id)

/-- `event_to_sibling_and_mark`: stamp the sibling's contour flags and
return the sibling's result event. `none` embeds the `unwrap`/indexing
panics. -/
def event_to_sibling_and_mark (event : Event)
    (contour_id depth : Nat) (parent_contour_id : Option Nat)
    (event_relations : List EventRelation)
    (event_id_to_contour_flags : FlagsMap) (result_events : List Event) :
    Option (Event × FlagsMap) :=
  let sibling_id := (rel event_relations event.event_id).sibling_id
  match fget event_id_to_contour_flags sibling_id with
  | none => none
  | some contour_relation =>
    let event_id_to_contour_flags := fmod event_id_to_contour_flags sibling_id
      (fun c => { c with processed := true, contour_id := contour_id,
                         depth := depth, parent_id := parent_contour_id })
    match result_events.get? contour_relation.result_id with
    | none => none
    | some ev => some (ev, event_id_to_contour_flags)

/-- The walking loop of `compute_contour`, fuelled: while the current
event has not closed the contour, hop to the other result event at the
same point (the neighbour at `result_id ∓ 1`), record its point and source
tag, then jump to its sibling. -/
def compute_contour_go (start_event : Event) (contour_id depth : Nat)
    (parent_contour_id : Option Nat) (event_relations : List EventRelation)
    (result_events : List Event) :
    Nat → Event → FlagsMap → List Vec2 → List SourceEdge →
    Option (List Vec2 × List SourceEdge × FlagsMap)
  | 0, _, _, _, _ => none  -- out of fuel (source loops until closure)
  | fuel + 1, current_event, event_id_to_contour_flags, contour,
      contour_source_edges =>
    if current_event.point = start_event.point then
      some (contour, contour_source_edges, event_id_to_contour_flags)
    else
      match fget event_id_to_contour_flags current_event.event_id with
      | none => none
      | some flags =>
        let result_id := flags.result_id
        let selected : Option Event :=
          if 0 < result_id ∧ (result_events.getD (result_id - 1) default).point
              = current_event.point then
            some (result_events.getD (result_id - 1) default)
          else
            -- In the source this indexing is asserted in bounds and the
            -- neighbour's point asserted equal; out of bounds panics.
            result_events.get? (result_id + 1)
        match selected with
        | none => none
        | some current_event =>
          match fget event_id_to_contour_flags current_event.event_id with
          | none => none  -- `.get_mut(..).unwrap()`
          | some _ =>
            let event_id_to_contour_flags :=
              fmod event_id_to_contour_flags current_event.event_id
                (fun c => { c with processed := true })
            let contour := contour ++ [current_event.point]
            let contour_source_edges := contour_source_edges ++
              [(rel event_relations current_event.event_id).source_edge]
            match event_to_sibling_and_mark current_event contour_id depth
                parent_contour_id event_relations event_id_to_contour_flags
                result_events with
            | none => none
            | some (current_event, event_id_to_contour_flags) =>
              compute_contour_go start_event contour_id depth
                parent_contour_id event_relations result_events fuel
                current_event event_id_to_contour_flags contour
                contour_source_edges

/-- `compute_contour`: the contour (and its parallel source-tag list)
starting at `start_event`. -/
def compute_contour (start_event : Event) (contour_id depth : Nat)
    (parent_contour_id : Option Nat) (event_relations : List EventRelation)
    (event_id_to_contour_flags : FlagsMap) (result_events : List Event) :
    Option (List Vec2 × List SourceEdge × FlagsMap) :=
  let contour := [start_event.point]
  let contour_source_edges :=
    [(rel event_relations start_event.event_id).source_edge]
  match event_to_sibling_and_mark start_event contour_id depth
      parent_contour_id event_relations event_id_to_contour_flags
      result_events with
  | none => none
  | some (current_event, event_id_to_contour_flags) =>
    compute_contour_go start_event contour_id depth parent_contour_id
      event_relations result_events (result_events.length + 1) current_event
      event_id_to_contour_flags contour contour_source_edges

/-- `join_contours`: assemble the result contours from the surviving
events, reversing odd-depth (hole) contours. -/
def join_contours (result_events : List Event)
    (event_relations : List EventRelation) (operation : Operation) :
    Option BooleanResult :=
  let initial_flags : FlagsMap := result_events.enum.map
    (fun (result_id, event) =>
      (event.event_id,
        { result_id := result_id,
          result_in_out := event.result_in_out
            (rel event_relations event.event_id) operation
          : EventContourFlags }))
  (result_events.foldl
    (fun acc result_event =>
      match acc with
      | none => none
      | some (event_id_to_contour_flags, contours, contour_source_edges) =>
        match fget event_id_to_contour_flags result_event.event_id with
        | none => none  -- `HashMap` indexing panic
        | some flags =>
          if flags.processed then
            some (event_id_to_contour_flags, contours, contour_source_edges)
          else
            match compute_depth result_event event_relations
                event_id_to_contour_flags with
            | none => none
            | some (depth, parent_contour_id) =>
              match compute_contour result_event contours.length depth
                  parent_contour_id event_relations event_id_to_contour_flags
                  result_events with
              | none => none
              | some (contour, source_edges_for_contour,
                  event_id_to_contour_flags) =>
                let (contour, source_edges_for_contour) :=
                  if depth % 2 = 1 then
                    (contour.reverse, source_edges_for_contour.reverse)
                  else (contour, source_edges_for_contour)
                some (event_id_to_contour_flags, contours ++ [contour],
                  contour_source_edges ++ [source_edges_for_contour]))
    (some (initial_flags, ([] : List (List Vec2)),
      ([] : List (List SourceEdge)))))
  |>.map (fun (_, contours, contour_source_edges) =>
      ⟨⟨contours⟩, contour_source_edges⟩)

/-! ## The public pipeline (`perform_boolean` and the four operations) -/

/-- The inner helper of `perform_boolean`: a trivial `BooleanResult` whose
tags enumerate the polygon's own contours and edges. -/
def polygon_to_boolean_result (polygon : Polygon) (is_subject : Bool) :
    BooleanResult :=
  ⟨polygon,
    polygon.contours.enum.map (fun (contour_index, contour) =>
      (List.range contour.length).map
        (fun index => ⟨is_subject, contour_index, index⟩))⟩

/-- Fuel for the sweep loop. The source loops until the queue drains; this
bound is far above the number of events any of the concrete runs in this
file produces. -/
def subdivide_fuel (event_relations : List EventRelation) : Nat :=
  (event_relations.length + 2) * (event_relations.length + 2) * 8

/-- `perform_boolean`: the bounding-box fast paths, then the sweep
pipeline. `none` embeds a panic or fuel exhaustion, neither of which
occurs in the runs below. -/
def perform_boolean (subject clip : Polygon) (operation : Operation) :
    Option BooleanResult :=
  match subject.compute_bounds, clip.compute_bounds with
  | none, none => some ⟨⟨[]⟩, []⟩
  | some _, none =>
    if operation = Operation.Intersection then some ⟨⟨[]⟩, []⟩
    else some (polygon_to_boolean_result subject true)
  | none, some _ =>
    if operation = Operation.Intersection ∨ operation = Operation.Difference
        then some ⟨⟨[]⟩, []⟩
    else some (polygon_to_boolean_result clip false)
  | some (subject_min, subject_max), some (clip_min, clip_max) =>
    if subject_max.x < clip_min.x ∨ subject_max.y < clip_min.y
        ∨ clip_max.x < subject_min.x ∨ clip_max.y < subject_min.y then
      match operation with
      | .Intersection => some ⟨⟨[]⟩, []⟩
      | .Difference => some (polygon_to_boolean_result subject true)
      | .Union | .XOR =>
        let subject_result := polygon_to_boolean_result subject true
        let clip_result := polygon_to_boolean_result clip false
        some ⟨⟨subject_result.polygon.contours
                ++ clip_result.polygon.contours⟩,
          subject_result.contour_source_edges
            ++ clip_result.contour_source_edges⟩
    else
      let (event_queue, event_relations) :=
        create_events_for_polygon subject true [] []
      let (event_queue, event_relations) :=
        create_events_for_polygon clip false event_queue event_relations
      match subdivide_edges event_queue event_relations operation
          (subdivide_fuel event_relations) with
      | none => none
      | some (result_events, event_relations) =>
        join_contours result_events event_relations operation

def intersection (subject clip : Polygon) : Option BooleanResult :=
  perform_boolean subject clip .Intersection

def union (subject clip : Polygon) : Option BooleanResult :=
  perform_boolean subject clip .Union

def difference (subject clip : Polygon) : Option BooleanResult :=
  perform_boolean subject clip .Difference

def xor (subject clip : Polygon) : Option BooleanResult :=
  perform_boolean subject clip .XOR

/-! ## Specification predicates

These definitions formalise the spec's wording so it can be compared with
the pipeline's output: a result edge "has" a source tag when the edge is a
sub-segment of the input edge the tag names. -/

/-- The spec's contour well-formedness: at least three points, and
consecutive points (wraparound included) distinct. -/
def good_contour (contour : List Vec2) : Bool :=
  decide (3 ≤ contour.length)
    && (List.range contour.length).all (fun j =>
        contour.getD j default
          ≠ contour.getD ((j + 1) % contour.length) default)

/-- Whether `perform_boolean` answers through one of its trivial
bounding-box paths (one polygon has no vertices, or the boxes are
strictly disjoint) without running the sweep. -/
def takes_trivial_path (subject clip : Polygon) : Bool :=
  match subject.compute_bounds, clip.compute_bounds with
  | some (subject_min, subject_max), some (clip_min, clip_max) =>
    decide (subject_max.x < clip_min.x ∨ subject_max.y < clip_min.y
      ∨ clip_max.x < subject_min.x ∨ clip_max.y < subject_min.y)
  | _, _ => true

/-! ## Concrete inputs used to settle the claims

`hole_subject`/`hole_clip` are the source repository's own
`cut_and_fill_hole` test (a 4×4 square minus a centred 2×2 square, which
produces a shell and a reversed hole). -/

def hole_subject : Polygon := ⟨[[⟨1, 1⟩, ⟨5, 1⟩, ⟨5, 5⟩, ⟨1, 5⟩]]⟩

def hole_clip : Polygon := ⟨[[⟨2, 2⟩, ⟨4, 2⟩, ⟨4, 4⟩, ⟨2, 4⟩]]⟩

/-- A degenerate but finite-coordinate contour: a doubled segment. -/
def segment_a : Polygon := ⟨[[⟨0, 0⟩, ⟨2, 0⟩]]⟩

/-- A second doubled segment, collinear with and overlapping
`segment_a`. -/
def segment_b : Polygon := ⟨[[⟨1, 0⟩, ⟨3, 0⟩]]⟩

/-- A doubled segment used for the self-difference experiment. -/
def segment_c : Polygon := ⟨[[⟨0, 0⟩, ⟨1, 0⟩]]⟩

/-- The polygon with no contours. -/
def empty_polygon : Polygon := ⟨[]⟩

/-- Its `BooleanResult`. -/
def empty_result : BooleanResult := ⟨⟨[]⟩, []⟩

/-- A polygon with one contour and no vertices (allowed by the spec:
"Contours may be empty"). -/
def empty_contour_polygon : Polygon := ⟨[[]]⟩

/-- A polygon whose single contour is a single point. -/
def point_polygon : Polygon := ⟨[[⟨2, 2⟩]]⟩

/-- Two small, strictly disjoint triangles. -/
def tri_low : Polygon := ⟨[[⟨0, 0⟩, ⟨1, 0⟩, ⟨0, 1⟩]]⟩

def tri_high : Polygon := ⟨[[⟨5, 5⟩, ⟨6, 5⟩, ⟨5, 6⟩]]⟩

/-! ## Float front end with NaN (for the NaN error-handling claim)

`FpQ` embeds an f32 value that is either finite (`some q`, exact) or NaN
(`none`). `fp_min`/`fp_max` have Rust's `f32::min`/`f32::max` semantics
(NaN is absorbed: if one operand is NaN the other is returned);
`fp_lt` is the IEEE comparison (any comparison against NaN is false). -/

abbrev FpQ : Type := Option ℚ

def fp_min (a b : FpQ) : FpQ :=
  match a, b with
  | some a, some b => some (min a b)
  | none, b => b
  | a, none => a

def fp_max (a b : FpQ) : FpQ :=
  match a, b with
  | some a, some b => some (max a b)
  | none, b => b
  | a, none => a

def fp_lt (a b : FpQ) : Bool :=
  match a, b with
  | some a, some b => decide (a < b)
  | _, _ => false

structure FpVec2 where
  x : FpQ
  y : FpQ
deriving DecidableEq, Repr, Inhabited

def FpVec2.vmin (a b : FpVec2) : FpVec2 := ⟨fp_min a.x b.x, fp_min a.y b.y⟩

def FpVec2.vmax (a b : FpVec2) : FpVec2 := ⟨fp_max a.x b.x, fp_max a.y b.y⟩

structure PolygonF where
  contours : List (List FpVec2)
deriving DecidableEq, Repr, Inhabited

/-- `Polygon::compute_bounds` over float coordinates. -/
def PolygonF.compute_bounds (p : PolygonF) : Option (FpVec2 × FpVec2) :=
  p.contours.flatten.foldl
    (fun bounds point =>
      some (match bounds with
        | none => (point, point)
        | some (lo, hi) => (lo.vmin point, hi.vmax point)))
    none

/-- Some vertex coordinate of the polygon is NaN. -/
def PolygonF.has_nan (p : PolygonF) : Bool :=
  p.contours.any (fun contour =>
    contour.any (fun v => v.x.isNone || v.y.isNone))

/-- Some vertex x-coordinate of the polygon is NaN. -/
def PolygonF.has_nan_x (p : PolygonF) : Bool :=
  p.contours.any (fun contour => contour.any (fun v => v.x.isNone))

/-- `f32::partial_cmp`: `none` iff an operand is NaN. -/
def fp_partial_cmp (a b : FpQ) : Option Ordering :=
  match a, b with
  | some a, some b => some (qcmp a b)
  | _, _ => none

/-- `lex_order_points` over float coordinates: the source's `panic!()` on
a NaN comparison is `.error ()`. A NaN y-coordinate is only reached (and
only panics) when the x-coordinates compare equal, exactly as in the
source. -/
def lex_order_points_f (a b : FpVec2) : Except Unit Ordering :=
  match fp_partial_cmp a.x b.x with
  | none => .error ()
  | some Ordering.eq =>
    match fp_partial_cmp a.y b.y with
    | none => .error ()
    | some ord => .ok ord
  | some ord => .ok ord

/-- `Event` over float coordinates. -/
structure EventF where
  event_id : Nat
  point : FpVec2
  left : Bool
  is_subject : Bool
  other_point : FpVec2
deriving DecidableEq, Repr, Inhabited

/-- `EventRelation` over float coordinates, with the source's `Default`
values. -/
structure EventRelationF where
  sibling_id : Nat := 0
  sibling_point : FpVec2 := ⟨some 0, some 0⟩
  in_out : Bool := false
  other_in_out : Bool := false
  in_result : Bool := false
  prev_in_result : Option Nat := none
  edge_coincidence_type : EdgeCoincidenceType := .NoCoincidence
  source_edge : SourceEdge := {}
deriving DecidableEq, Repr, Inhabited

/-- `create_events_for_polygon` over float coordinates: for every contour
edge the endpoints are compared with `lex_order_points`, which panics
(`.error ()`) when the comparison meets a NaN; degenerate edges are
dropped and the two events and relations are appended otherwise. -/
def create_events_for_polygon_f (polygon : PolygonF) (is_subject : Bool)
    (event_queue : List EventF) (event_relations : List EventRelationF) :
    Except Unit (List EventF × List EventRelationF) :=
  polygon.contours.enum.foldl
    (fun state (contour_index, contour) =>
      (List.range contour.length).foldl
        (fun (state : Except Unit (List EventF × List EventRelationF))
            point_index =>
          match state with
          | .error e => .error e
          | .ok (event_queue, event_relations) =>
            let next_point_index :=
              if point_index = contour.length - 1 then 0 else point_index + 1
            let point_1 := contour.getD point_index default
            let point_2 := contour.getD next_point_index default
            match lex_order_points_f point_1 point_2 with
            | .error e => .error e
            | .ok .eq => .ok (event_queue, event_relations)
            | .ok ord =>
              let event_1_left := ord = Ordering.lt
              let event_2_left := ord = Ordering.gt
              let event_id_1 := event_relations.length
              let event_id_2 := event_relations.length + 1
              .ok (event_queue ++
                [⟨event_id_1, point_1, event_1_left, is_subject, point_2⟩,
                 ⟨event_id_2, point_2, event_2_left, is_subject, point_1⟩],
                event_relations ++
                [{ sibling_id := event_id_2, sibling_point := point_2,
                   source_edge := ⟨is_subject, contour_index, point_index⟩ },
                 { sibling_id := event_id_1, sibling_point := point_1,
                   source_edge := ⟨is_subject, contour_index, point_index⟩ }]))
        state)
    (.ok (event_queue, event_relations))


structure BooleanResultF where
  polygon : PolygonF
  contour_source_edges : List (List SourceEdge)
deriving DecidableEq, Repr, Inhabited

def polygon_to_boolean_result_f (polygon : PolygonF) (is_subject : Bool) :
    BooleanResultF :=
  ⟨polygon,
    polygon.contours.enum.map (fun (contour_index, contour) =>
      (List.range contour.length).map
        (fun index => ⟨is_subject, contour_index, index⟩))⟩

def to_exact_vec (v : FpVec2) : Option Vec2 :=
  match v.x, v.y with
  | some x, some y => some ⟨x, y⟩
  | _, _ => none

def to_exact_polygon (p : PolygonF) : Option Polygon :=
  (p.contours.mapM (fun contour => List.mapM to_exact_vec contour)).map
    (fun contours => ⟨contours⟩)

def to_f_vec (v : Vec2) : FpVec2 := ⟨some v.x, some v.y⟩

def to_f_result (r : BooleanResult) : BooleanResultF :=
  ⟨⟨r.polygon.contours.map (List.map to_f_vec)⟩, r.contour_source_edges⟩

def to_exact_event (e : EventF) : Option Event :=
  match to_exact_vec e.point, to_exact_vec e.other_point with
  | some p, some op => some ⟨e.event_id, p, e.left, e.is_subject, op⟩
  | _, _ => none

def to_exact_relation (r : EventRelationF) : Option EventRelation :=
  (to_exact_vec r.sibling_point).map (fun sp =>
    ⟨r.sibling_id, sp, r.in_out, r.other_in_out, r.in_result,
      r.prev_in_result, r.edge_coincidence_type, r.source_edge⟩)

/-- Convert a NaN-free created event state to the exact one; `none` when
a NaN is still present in some event. -/
def to_exact_events (event_queue : List EventF)
    (event_relations : List EventRelationF) :
    Option (List Event × List EventRelation) :=
  match event_queue.mapM to_exact_event,
      event_relations.mapM to_exact_relation with
  | some q, some r => some (q, r)
  | _, _ => none

/-- The bounding-box fast path of `perform_boolean` (source lines
105–171) over float coordinates: `some` is an early return, `none` falls
through to the sweep core. -/
def fast_path_f (subject clip : PolygonF) (operation : Operation) :
    Option BooleanResultF :=
  match subject.compute_bounds, clip.compute_bounds with
  | none, none => some ⟨⟨[]⟩, []⟩
  | some _, none =>
    if operation = Operation.Intersection then some ⟨⟨[]⟩, []⟩
    else some (polygon_to_boolean_result_f subject true)
  | none, some _ =>
    if operation = Operation.Intersection ∨ operation = Operation.Difference
        then some ⟨⟨[]⟩, []⟩
    else some (polygon_to_boolean_result_f clip false)
  | some (subject_min, subject_max), some (clip_min, clip_max) =>
    if fp_lt subject_max.x clip_min.x || fp_lt subject_max.y clip_min.y
        || fp_lt clip_max.x subject_min.x || fp_lt clip_max.y subject_min.y
        then
      match operation with
      | .Intersection => some ⟨⟨[]⟩, []⟩
      | .Difference => some (polygon_to_boolean_result_f subject true)
      | .Union | .XOR =>
        let subject_result := polygon_to_boolean_result_f subject true
        let clip_result := polygon_to_boolean_result_f clip false
        some ⟨⟨subject_result.polygon.contours
                ++ clip_result.polygon.contours⟩,
          subject_result.contour_source_edges
            ++ clip_result.contour_source_edges⟩
    else none

/-- `perform_boolean` over float coordinates. When the fast path does not
answer, events are created for both polygons with the float
`create_events_for_polygon_f`, whose lexicographic comparisons panic on
the NaNs they reach. A NaN confined to y-coordinates whose neighbouring
x-coordinates all differ survives event creation; such an event is later
popped and compared by the sweep (whose `partial_cmp().unwrap()` calls
meet the NaN), which is modelled by the `.error ()` in the `none` arm of
`to_exact_events` without simulating the float sweep. NaN-free runs
proceed with the exact core. -/
def perform_boolean_f (subject clip : PolygonF) (operation : Operation) :
    Except Unit BooleanResultF :=
  match fast_path_f subject clip operation with
  | some r => .ok r
  | none =>
    match create_events_for_polygon_f subject true [] [] with
    | .error e => .error e
    | .ok (event_queue, event_relations) =>
      match create_events_for_polygon_f clip false event_queue
          event_relations with
      | .error e => .error e
      | .ok (event_queue, event_relations) =>
        match to_exact_events event_queue event_relations with
        | none => .error ()
        | some (event_queue, event_relations) =>
          match subdivide_edges event_queue event_relations operation
              (subdivide_fuel event_relations) with
          | none => .error ()
          | some (result_events, event_relations) =>
            match join_contours result_events event_relations operation with
            | none => .error ()
            | some res => .ok (to_f_result res)

/-- The NaN-x single-point subject of the NaN counterexample. -/
def nan_subject : PolygonF := ⟨[[⟨none, some 0⟩]]⟩

/-- A finite clip far above `nan_subject` in y, so the NaN-absorbing
bounds test reports the boxes disjoint. -/
def far_clip : PolygonF :=
  ⟨[[⟨some 0, some 10⟩, ⟨some 1, some 10⟩, ⟨some 1, some 11⟩]]⟩

/-- A finite clip overlapping `nan_subject` in y, so every disjointness
comparison is false (the x comparisons against NaN included) and the
fast path falls through to the sweep core. -/
def near_clip : PolygonF :=
  ⟨[[⟨some 0, some 0⟩, ⟨some 1, some 0⟩, ⟨some 1, some 1⟩]]⟩

/-- Concrete pre-split state: one edge from `(0,0)` to `(2,2)` whose two
events are ids 0 (left) and 1 (right). -/
def split_rels : List EventRelation :=
  [{ sibling_id := 1, sibling_point := ⟨2, 2⟩,
     source_edge := ⟨true, 0, 0⟩ },
   { sibling_id := 0, sibling_point := ⟨0, 0⟩,
     source_edge := ⟨true, 0, 0⟩ }]

/-- The left event of that edge. -/
def split_event : Event := ⟨0, ⟨0, 0⟩, true, true, ⟨2, 2⟩⟩

/-- The right event of that edge (used to witness the coincidence
claim). -/
def coincide_event : Event := ⟨1, ⟨2, 2⟩, false, true, ⟨0, 0⟩⟩

/-- Two concrete distinct events over the same point (used to witness the
event-order claim). -/
def ev_a : Event := ⟨7, ⟨1, 1⟩, true, true, ⟨3, 2⟩⟩

def ev_b : Event := ⟨9, ⟨1, 1⟩, true, false, ⟨3, 4⟩⟩

/-! ## Helper lemmas about the comparison primitives -/

theorem qcmp_swap (a b : ℚ) : qcmp a b = (qcmp b a).swap := by
  unfold qcmp
  split_ifs <;> first | rfl | (exfalso; linarith)

theorem qcmp_eq_iff (a b : ℚ) : qcmp a b = Ordering.eq ↔ a = b := by
  unfold qcmp
  split_ifs with h1 h2
  · exact iff_of_false (by decide) (ne_of_lt h1)
  · exact iff_of_false (by decide) (ne_of_gt h2)
  · exact iff_of_true rfl (le_antisymm (not_lt.mp h2) (not_lt.mp h1))

theorem qcmp_zero_neg (t : ℚ) : qcmp 0 (-t) = (qcmp 0 t).swap := by
  unfold qcmp
  split_ifs <;> first | rfl | (exfalso; linarith)

theorem bcmp_swap (a b : Bool) : bcmp a b = (bcmp b a).swap := by
  cases a <;> cases b <;> rfl

theorem bcmp_eq_iff (a b : Bool) : bcmp a b = Ordering.eq ↔ a = b := by
  cases a <;> cases b <;> decide

theorem ncmp_swap (a b : Nat) : ncmp a b = (ncmp b a).swap := by
  unfold ncmp
  split_ifs <;> first | rfl | (exfalso; omega)

theorem ncmp_eq_iff (a b : Nat) : ncmp a b = Ordering.eq ↔ a = b := by
  unfold ncmp
  split_ifs with h1 h2
  · exact iff_of_false (by decide) (by omega)
  · exact iff_of_false (by decide) (by omega)
  · exact iff_of_true rfl (by omega)

theorem perp_dot_anticomm (u v : Vec2) : u.perp_dot v = -(v.perp_dot u) := by
  unfold Vec2.perp_dot
  ring

theorem lex_order_points_swap (a b : Vec2) :
    lex_order_points a b = (lex_order_points b a).swap := by
  unfold lex_order_points
  rw [qcmp_swap a.x b.x, qcmp_swap a.y b.y]
  cases qcmp b.x a.x <;> rfl

theorem lex_order_points_eq {a b : Vec2} (h : lex_order_points a b = .eq) :
    a = b := by
  unfold lex_order_points at h
  cases hx : qcmp a.x b.x <;> rw [hx] at h <;> simp at h
  cases a
  cases b
  have hx' := (qcmp_eq_iff _ _).mp hx
  have hy' := (qcmp_eq_iff _ _).mp h
  simp only at hx' hy'
  simp [hx', hy']

theorem point_relative_to_line_arg_swap (p u v : Vec2) :
    point_relative_to_line p u v = (point_relative_to_line p v u).swap := by
  unfold point_relative_to_line
  rw [perp_dot_anticomm, qcmp_zero_neg]

/-- The event-queue comparison is antisymmetric: comparing in the other
direction yields the swapped ordering. -/
theorem event_cmp_swap (a b : Event) :
    Event.cmp a b = (Event.cmp b a).swap := by
  unfold Event.cmp
  rw [lex_order_points_swap a.point b.point]
  cases hlex : lex_order_points b.point a.point
  case lt => rfl
  case gt => rfl
  case eq =>
    have hpt : b.point = a.point := lex_order_points_eq hlex
    rw [bcmp_swap a.left b.left]
    cases hleft : bcmp b.left a.left
    case lt => rfl
    case gt => rfl
    case eq =>
      have hl : b.left = a.left := (bcmp_eq_iff _ _).mp hleft
      rw [bcmp_swap a.is_vertical b.is_vertical]
      cases hv : bcmp b.is_vertical a.is_vertical
      case lt => rfl
      case gt => rfl
      case eq =>
        rw [hpt,
          point_relative_to_line_arg_swap a.point b.other_point a.other_point]
        cases hrel : point_relative_to_line a.point a.other_point b.other_point
        case lt =>
          rw [hl]
          cases a.left <;> rfl
        case gt =>
          rw [hl]
          cases a.left <;> rfl
        case eq =>
          rw [bcmp_swap a.is_subject b.is_subject]
          cases hsub : bcmp b.is_subject a.is_subject
          case lt => rfl
          case gt => rfl
          case eq =>
            rw [ncmp_swap a.event_id b.event_id]
            rfl

/-- The event-queue comparison returns `eq` only for equal event ids. -/
theorem event_cmp_eq_ids {a b : Event} (h : Event.cmp a b = Ordering.eq) :
    a.event_id = b.event_id := by
  unfold Event.cmp at h
  cases hlex : lex_order_points a.point b.point <;> rw [hlex] at h <;>
    simp at h
  cases hl : bcmp a.left b.left <;> rw [hl] at h <;> simp at h
  cases hv : bcmp a.is_vertical b.is_vertical <;> rw [hv] at h <;> simp at h
  cases hr : point_relative_to_line a.point a.other_point b.other_point <;>
    rw [hr] at h
  case lt => simp [Ordering.swap] at h
  case gt => simp [Ordering.swap] at h
  case eq =>
    cases hs : bcmp a.is_subject b.is_subject <;> rw [hs] at h <;>
      simp [Ordering.swap] at h
    exact (ncmp_eq_iff _ _).mp h

/-! ## Helper lemmas about relation-table access -/

theorem updr_length (l : List EventRelation) (i : Nat)
    (f : EventRelation → EventRelation) :
    (updr l i f).length = l.length := by
  simp [updr]

theorem rel_updr_self {l : List EventRelation} {i : Nat}
    (f : EventRelation → EventRelation) (h : i < l.length) :
    rel (updr l i f) i = f (rel l i) := by
  simp [rel, updr, List.getD_eq_getElem?_getD, List.getElem?_set_self h]

theorem rel_updr_ne {l : List EventRelation} {i j : Nat}
    (f : EventRelation → EventRelation) (h : i ≠ j) :
    rel (updr l i f) j = rel l j := by
  simp [rel, updr, List.getD_eq_getElem?_getD, List.getElem?_set_ne h]

theorem rel_append_lt {l : List EventRelation} (m : List EventRelation)
    {i : Nat} (h : i < l.length) : rel (l ++ m) i = rel l i := by
  simp [rel, List.getD_eq_getElem?_getD, List.getElem?_append_left h]

theorem rel_append_first (l : List EventRelation) (a b : EventRelation) :
    rel (l ++ [a, b]) l.length = a := by
  simp [rel, List.getD_eq_getElem?_getD,
    List.getElem?_append_right (Nat.le_refl l.length)]

theorem rel_append_second (l : List EventRelation) (a b : EventRelation) :
    rel (l ++ [a, b]) (l.length + 1) = b := by
  simp [rel, List.getD_eq_getElem?_getD,
    List.getElem?_append_right (Nat.le_succ_of_le (Nat.le_refl l.length))]

/-- Unconditional description of reads after `updr`. -/
theorem rel_updr (l : List EventRelation) (i j : Nat)
    (f : EventRelation → EventRelation) :
    rel (updr l i f) j
      = if j = i ∧ i < l.length then f (rel l i) else rel l j := by
  by_cases hj : j = i
  · subst hj
    by_cases hl : j < l.length
    · rw [rel_updr_self f hl, if_pos ⟨rfl, hl⟩]
    · rw [if_neg (fun hc => hl hc.2)]
      have hset : l.set j (f (rel l j)) = l :=
        List.set_eq_of_length_le (Nat.le_of_not_lt hl)
      simp [updr, hset]
  · rw [rel_updr_ne f (Ne.symm hj), if_neg (fun hc => hj hc.1)]

/-! ## Claim C8 -/

/-- C8: for any two events with distinct event ids (coordinates are exact
rationals, the claim's finite-float case), the event-queue ordering is
trichotomous and asymmetric: it never returns `eq`, and exactly one of
"first less than second" and "second less than first" holds. -/
theorem c8_event_queue_order_total (a b : Event)
    (h : a.event_id ≠ b.event_id) :
    Event.cmp a b ≠ Ordering.eq
    ∧ ((Event.cmp a b = Ordering.lt ∧ Event.cmp b a = Ordering.gt)
        ∨ (Event.cmp a b = Ordering.gt ∧ Event.cmp b a = Ordering.lt)) := by
  have hne : Event.cmp a b ≠ Ordering.eq :=
    fun he => h (event_cmp_eq_ids he)
  refine ⟨hne, ?_⟩
  have hswap := event_cmp_swap b a
  cases hab : Event.cmp a b
  · left
    exact ⟨rfl, by rw [hswap, hab]; rfl⟩
  · exact absurd hab hne
  · right
    exact ⟨rfl, by rw [hswap, hab]; rfl⟩

/-- Witness for C8 at two concrete events sharing a point. -/
theorem c8_event_queue_order_total_witness :
    Event.cmp ev_a ev_b ≠ Ordering.eq
    ∧ ((Event.cmp ev_a ev_b = Ordering.lt ∧ Event.cmp ev_b ev_a = Ordering.gt)
        ∨ (Event.cmp ev_a ev_b = Ordering.gt
            ∧ Event.cmp ev_b ev_a = Ordering.lt)) :=
  c8_event_queue_order_total ev_a ev_b (by decide)

/-! ## Claim C9 -/

/-- C9: the pipeline is deterministic — equal subject and clip polygons
produce identical `BooleanResult`s (contour order, point order and source
tags included). The embedding resolves every `HashMap` operation to a
keyed lookup (the source never iterates the map), so the whole pipeline
is a pure function of its inputs. -/
theorem c9_deterministic (s1 c1 s2 c2 : Polygon) (operation : Operation)
    (hs : s1 = s2) (hc : c1 = c2) :
    perform_boolean s1 c1 operation = perform_boolean s2 c2 operation := by
  subst hs
  subst hc
  rfl

/-- Witness for C9 at concrete polygons. -/
theorem c9_deterministic_witness :
    perform_boolean hole_subject hole_clip Operation.Difference
      = perform_boolean hole_subject hole_clip Operation.Difference :=
  c9_deterministic hole_subject hole_clip hole_subject hole_clip
    Operation.Difference rfl rfl

/-! ## Claim C2 -/

/-- C2 (counterexample): after splitting the concrete edge `(0,0)–(2,2)`
(events 0 and 1, `split_rels`) at the interior point `(1,1)`, the two
original events are *not* siblings of each other — event 0 is re-paired
with fresh event 2 and event 1 with fresh event 3 — so the two old events
do not jointly cover either sub-edge, contrary to the claim that the two
old events cover the near segment and the two new events the far one. -/
theorem c2_split_pairing_counterexample :
    (rel (split_edge split_event ⟨1, 1⟩ [] split_rels).2.1 0).sibling_id = 2
    ∧ (rel (split_edge split_event ⟨1, 1⟩ [] split_rels).2.1 1).sibling_id = 3
    ∧ ¬ ((rel (split_edge split_event ⟨1, 1⟩ [] split_rels).2.1 0).sibling_id
          = 1
        ∧ (rel (split_edge split_event ⟨1, 1⟩ [] split_rels).2.1 1).sibling_id
          = 0) := by
  refine ⟨by with_unfolding_all decide, by with_unfolding_all decide, ?_⟩
  intro hcl
  exact absurd hcl.1 (by with_unfolding_all decide)

/-- C2 (amended): splitting the edge of `edge_event` at an interior point
`point` re-pairs each old event with one fresh event: the old event is
paired with fresh event `n` and covers the sub-edge from
`edge_event.point` to `point`, the old sibling is paired with fresh event
`n+1` and covers the sub-edge from `point` to the old sibling point, and
all four events carry the original source tag (`n` is the size of the
relation table before the split). -/
theorem c2_split_edge_amended (edge_event : Event) (point : Vec2)
    (event_queue : List Event) (event_relations : List EventRelation)
    (h1 : edge_event.event_id < event_relations.length)
    (h2 : (rel event_relations edge_event.event_id).sibling_id
        < event_relations.length)
    (h3 : edge_event.event_id
        ≠ (rel event_relations edge_event.event_id).sibling_id) :
    (split_edge edge_event point event_queue event_relations).2.2
        = event_relations.length + 1
    ∧ (split_edge edge_event point event_queue event_relations).1
        = event_queue
          ++ [⟨event_relations.length, point, false, edge_event.is_subject,
                edge_event.point⟩,
              ⟨event_relations.length + 1, point, true,
                edge_event.is_subject, edge_event.other_point⟩]
    ∧ (rel (split_edge edge_event point event_queue event_relations).2.1
          edge_event.event_id).sibling_id = event_relations.length
    ∧ (rel (split_edge edge_event point event_queue event_relations).2.1
          edge_event.event_id).sibling_point = point
    ∧ (rel (split_edge edge_event point event_queue event_relations).2.1
          event_relations.length).sibling_id = edge_event.event_id
    ∧ (rel (split_edge edge_event point event_queue event_relations).2.1
          event_relations.length).sibling_point = edge_event.point
    ∧ (rel (split_edge edge_event point event_queue event_relations).2.1
          (rel event_relations edge_event.event_id).sibling_id).sibling_id
        = event_relations.length + 1
    ∧ (rel (split_edge edge_event point event_queue event_relations).2.1
          (rel event_relations edge_event.event_id).sibling_id).sibling_point
        = point
    ∧ (rel (split_edge edge_event point event_queue event_relations).2.1
          (event_relations.length + 1)).sibling_id
        = (rel event_relations edge_event.event_id).sibling_id
    ∧ (rel (split_edge edge_event point event_queue event_relations).2.1
          (event_relations.length + 1)).sibling_point
        = (rel event_relations edge_event.event_id).sibling_point
    ∧ (rel (split_edge edge_event point event_queue event_relations).2.1
          edge_event.event_id).source_edge
        = (rel event_relations edge_event.event_id).source_edge
    ∧ (rel (split_edge edge_event point event_queue event_relations).2.1
          (rel event_relations edge_event.event_id).sibling_id).source_edge
        = (rel event_relations
            (rel event_relations edge_event.event_id).sibling_id).source_edge
    ∧ (rel (split_edge edge_event point event_queue event_relations).2.1
          event_relations.length).source_edge
        = (rel event_relations edge_event.event_id).source_edge
    ∧ (rel (split_edge edge_event point event_queue event_relations).2.1
          (event_relations.length + 1)).source_edge
        = (rel event_relations edge_event.event_id).source_edge := by
  have h_si : (rel event_relations edge_event.event_id).sibling_id
      ≠ edge_event.event_id := Ne.symm h3
  have h_sn : (rel event_relations edge_event.event_id).sibling_id
      ≠ event_relations.length := Nat.ne_of_lt h2
  have h_sn1 : (rel event_relations edge_event.event_id).sibling_id
      ≠ event_relations.length + 1 := by omega
  have h_in : edge_event.event_id ≠ event_relations.length :=
    Nat.ne_of_lt h1
  have h_in1 : edge_event.event_id ≠ event_relations.length + 1 := by omega
  simp only [split_edge]
  refine ⟨?_, ?_, ?_, ?_, ?_, ?_, ?_, ?_, ?_, ?_, ?_, ?_, ?_, ?_⟩
  · trivial
  · trivial
  · rw [rel_updr_ne _ h_si, rel_updr_self _ (by
      simp only [List.length_append, List.length_cons, List.length_nil]
      omega), rel_append_lt _ h1]
  · rw [rel_updr_ne _ h_si, rel_updr_self _ (by
      simp only [List.length_append, List.length_cons, List.length_nil]
      omega), rel_append_lt _ h1]
  · rw [rel_updr_ne _ h_sn, rel_updr_ne _ h_in, rel_append_first]
  · rw [rel_updr_ne _ h_sn, rel_updr_ne _ h_in, rel_append_first]
  · rw [rel_updr_self _ (by
      simp only [updr_length, List.length_append, List.length_cons,
        List.length_nil]
      omega), rel_updr_ne _ h3, rel_append_lt _ h2]
  · rw [rel_updr_self _ (by
      simp only [updr_length, List.length_append, List.length_cons,
        List.length_nil]
      omega), rel_updr_ne _ h3, rel_append_lt _ h2]
  · rw [rel_updr_ne _ h_sn1, rel_updr_ne _ h_in1, rel_append_second]
  · rw [rel_updr_ne _ h_sn1, rel_updr_ne _ h_in1, rel_append_second]
  · rw [rel_updr_ne _ h_si, rel_updr_self _ (by
      simp only [List.length_append, List.length_cons, List.length_nil]
      omega), rel_append_lt _ h1]
  · rw [rel_updr_self _ (by
      simp only [updr_length, List.length_append, List.length_cons,
        List.length_nil]
      omega), rel_updr_ne _ h3, rel_append_lt _ h2]
  · rw [rel_updr_ne _ h_sn, rel_updr_ne _ h_in, rel_append_first]
  · rw [rel_updr_ne _ h_sn1, rel_updr_ne _ h_in1, rel_append_second]

/-- Witness for C2 at the concrete split state. -/
theorem c2_split_edge_amended_witness :
    (rel (split_edge split_event ⟨1, 1⟩ [] split_rels).2.1 0).sibling_id
      = split_rels.length :=
  (c2_split_edge_amended split_event ⟨1, 1⟩ [] split_rels
    (by with_unfolding_all decide) (by with_unfolding_all decide)
    (by with_unfolding_all decide)).2.2.1

/-! ## Claim C3 -/

/-- C3: when two edges are found to overlap collinearly (the
`LineIntersection` arm of `check_for_intersection`, whose tail is
`apply_coincidence`), the duplicate coincident fragment is marked
`DuplicateCoincidence` with `in_result = false`, and the primary
fragment's `in_result` is set to true exactly when the transitions match
and the operation is Intersection or Union, or they differ and the
operation is Difference — in particular it is false for XOR in both
cases. The primary is the existing fragment when that is already in the
result, otherwise the new fragment. -/
theorem c3_coincidence_in_result (new_event existing_event : Event)
    (new_id exist_id : Nat) (event_relations : List EventRelation)
    (operation : Operation)
    (hne : new_id ≠ exist_id)
    (h1 : new_id < event_relations.length)
    (h2 : exist_id < event_relations.length) :
    (rel (apply_coincidence new_event existing_event new_id exist_id
          event_relations operation)
        (if (rel event_relations exist_id).in_result then new_id
          else exist_id)).in_result = false
    ∧ (rel (apply_coincidence new_event existing_event new_id exist_id
          event_relations operation)
        (if (rel event_relations exist_id).in_result then new_id
          else exist_id)).edge_coincidence_type
        = EdgeCoincidenceType.DuplicateCoincidence
    ∧ (rel (apply_coincidence new_event existing_event new_id exist_id
          event_relations operation)
        (if (rel event_relations exist_id).in_result then exist_id
          else new_id)).edge_coincidence_type
        = (if (rel event_relations new_event.event_id).in_out
              = (rel event_relations existing_event.event_id).in_out
            then EdgeCoincidenceType.SameTransition
            else EdgeCoincidenceType.DifferentTransition)
    ∧ (rel (apply_coincidence new_event existing_event new_id exist_id
          event_relations operation)
        (if (rel event_relations exist_id).in_result then exist_id
          else new_id)).in_result
        = (if (rel event_relations new_event.event_id).in_out
              = (rel event_relations existing_event.event_id).in_out
            then decide (operation = Operation.Intersection
              ∨ operation = Operation.Union)
            else decide (operation = Operation.Difference)) := by
  simp only [apply_coincidence]
  rw [rel_updr_ne _ hne]
  cases hb : (rel event_relations exist_id).in_result <;>
    simp only [Bool.false_eq_true, if_false, if_true] <;>
    split <;>
    refine ⟨?_, ?_, ?_, ?_⟩ <;>
    simp only [rel_updr, updr_length] <;>
    simp [hne, Ne.symm hne, h1, h2] <;>
    by_cases hsame : (rel event_relations new_event.event_id).in_out
        = (rel event_relations existing_event.event_id).in_out <;>
    simp [hsame, EdgeCoincidenceType.in_result]

/-- Witness for C3 at a concrete two-event state (operation XOR, so the
primary is also excluded). -/
theorem c3_coincidence_in_result_witness :
    (rel (apply_coincidence split_event coincide_event 0 1 split_rels
          Operation.XOR)
        (if (rel split_rels 1).in_result then 0 else 1)).in_result
      = false :=
  (c3_coincidence_in_result split_event coincide_event 0 1 split_rels
    Operation.XOR (by decide) (by with_unfolding_all decide)
    (by with_unfolding_all decide)).1

/-! ## Helper lemmas for the reversal of aligned contours -/

theorem foldl_except_absorb {σ α : Type}
    (step : Except Unit σ → α → Except Unit σ)
    (habs : ∀ x, step (Except.error ()) x = Except.error ())
    (l : List α) : l.foldl step (Except.error ()) = Except.error () := by
  induction l with
  | nil => rfl
  | cons y rest ih => rw [List.foldl_cons, habs, ih]

/-- If some element of the list makes the step fail from every live
state, and the step keeps failure, the whole fold fails. -/
theorem foldl_except_error {σ α : Type}
    (step : Except Unit σ → α → Except Unit σ)
    (habs : ∀ x, step (Except.error ()) x = Except.error ())
    (x : α) (hx : ∀ s, step (Except.ok s) x = Except.error ()) :
    ∀ (l : List α), x ∈ l → ∀ s0, l.foldl step s0 = Except.error () := by
  intro l
  induction l with
  | nil => intro hmem; exact absurd hmem (List.not_mem_nil x)
  | cons y rest ih =>
    intro hmem s0
    rw [List.foldl_cons]
    rcases List.mem_cons.mp hmem with rfl | hmem2
    · have hstep : step s0 x = Except.error () := by
        cases s0 with
        | error e => cases e; exact habs x
        | ok s => exact hx s
      rw [hstep]
      exact foldl_except_absorb step habs rest
    · exact ih hmem2 (step s0 y)

theorem mem_enum_of_mem {α : Type} {l : List α} {a : α} (h : a ∈ l) :
    ∃ i, (i, a) ∈ l.enum := by
  obtain ⟨i, hi, hv⟩ := List.mem_iff_getElem.mp h
  refine ⟨i, ?_⟩
  have hlen : i < l.enum.length := by
    rw [List.enum_length]
    exact hi
  have hval : l.enum[i] = (i, a) := by
    rw [List.getElem_enum, hv]
  exact hval ▸ List.getElem_mem hlen

/-- Event creation panics whenever some vertex x-coordinate is NaN: that
vertex's edge compares NaN x-coordinates in `lex_order_points` (an
earlier comparison may panic first; the fold fails either way). -/
theorem create_events_f_nan_x {polygon : PolygonF}
    (h : polygon.has_nan_x = true) (is_subject : Bool)
    (event_queue : List EventF) (event_relations : List EventRelationF) :
    create_events_for_polygon_f polygon is_subject event_queue
      event_relations = Except.error () := by
  simp only [PolygonF.has_nan_x, List.any_eq_true] at h
  obtain ⟨contour, hcm, v, hvm, hvx⟩ := h
  obtain ⟨i, hi, hvi⟩ := List.mem_iff_getElem.mp hvm
  obtain ⟨ci, hci⟩ := mem_enum_of_mem hcm
  unfold create_events_for_polygon_f
  refine foldl_except_error _ (fun x => ?_) (ci, contour) (fun s => ?_) _
    hci _
  · obtain ⟨cj, c⟩ := x
    exact foldl_except_absorb _ (fun _ => rfl) _
  · refine foldl_except_error _ (fun _ => rfl) i ?_ _
      (List.mem_range.mpr hi) _
    intro s2
    obtain ⟨q2, r2⟩ := s2
    have hpt : contour[i]?.getD default = v := by
      rw [List.getElem?_eq_getElem hi, hvi]
      rfl
    have hx0 : v.x = none := Option.isNone_iff_eq_none.mp hvx
    simp [lex_order_points_f, fp_partial_cmp, hpt, hx0]

/-! ## Claim C1 -/

/-- C4: the claim that every finite-coordinate input runs to completion
is contradicted by the code itself: on the union of two overlapping
degenerate (two-point) contours the contour walk's neighbour lookup
(`result_events[result_id + 1]`, guarded by a `debug_assert`) runs past
the end of the surviving-event list and the operation panics (`none`
embeds the panic). -/
theorem c4_contour_walk_panics :
    union segment_a segment_b = none := by
  with_unfolding_all decide

/-! ## Claim C5 -/

/-- C5 (counterexample): an input containing a NaN coordinate does not
always abort — when the NaN-absorbing bounding-box test routes the
operation to the trivial path, a `BooleanResult` is returned (here even
containing the NaN vertex). -/
theorem c5_nan_counterexample :
    nan_subject.has_nan = true
    ∧ perform_boolean_f nan_subject far_clip Operation.Union
        = Except.ok ⟨⟨nan_subject.contours ++ far_clip.contours⟩,
            [[⟨true, 0, 0⟩],
              [⟨false, 0, 0⟩, ⟨false, 0, 1⟩, ⟨false, 0, 2⟩]]⟩ := by
  constructor
  · with_unfolding_all decide
  · with_unfolding_all decide

/-- C5 (amended): for a NaN-containing input the operation panics only
when the bounding-box fast path does not return early; whenever the fast
path answers, its result is returned with no abort, and when it falls
through with a NaN x-coordinate present, the event generator's
lexicographic comparison (`partial_cmp(...).unwrap()`) meets the NaN and
the operation panics. -/
theorem c5_nan_amended (subject clip : PolygonF) (operation : Operation)
    (h : (subject.has_nan || clip.has_nan) = true) :
    (∀ r, fast_path_f subject clip operation = some r →
        perform_boolean_f subject clip operation = Except.ok r)
    ∧ (fast_path_f subject clip operation = none →
        (subject.has_nan_x || clip.has_nan_x) = true →
        perform_boolean_f subject clip operation = Except.error ()) := by
  constructor
  · intro r hr
    unfold perform_boolean_f
    rw [hr]
  · intro hr hx
    unfold perform_boolean_f
    rw [hr]
    rw [Bool.or_eq_true] at hx
    rcases hx with hns | hnc
    · rw [create_events_f_nan_x hns true [] []]
    · cases hcs : create_events_for_polygon_f subject true [] [] with
      | error e =>
        cases e
        rfl
      | ok s =>
        obtain ⟨q1, r1⟩ := s
        simp only [@create_events_f_nan_x clip hnc false]

/-- Witness for C5 at concrete NaN inputs exercising both halves: the
far clip takes the fast path and returns, the overlapping clip falls
through and the NaN x-coordinate panics in event creation. -/
theorem c5_nan_amended_witness :
    perform_boolean_f nan_subject far_clip Operation.Union
      = Except.ok ⟨⟨nan_subject.contours ++ far_clip.contours⟩,
          [[⟨true, 0, 0⟩],
            [⟨false, 0, 0⟩, ⟨false, 0, 1⟩, ⟨false, 0, 2⟩]]⟩
    ∧ perform_boolean_f nan_subject near_clip Operation.Union
      = Except.error () :=
  ⟨(c5_nan_amended nan_subject far_clip Operation.Union
        (by with_unfolding_all decide)).1 _ (by with_unfolding_all decide),
    (c5_nan_amended nan_subject near_clip Operation.Union
        (by with_unfolding_all decide)).2 (by with_unfolding_all decide)
      (by with_unfolding_all decide)⟩

/-! ## Claim C6 -/

/-- C6 (counterexample): both non-trivial identities fail on degenerate
inputs. `union` of a polygon whose only contour is empty with the empty
polygon returns the empty polygon, not the input; and the self-difference
of a doubled-segment contour is not empty. -/
theorem c6_identities_counterexample :
    (union empty_contour_polygon empty_polygon).map
        (fun r => decide (r.polygon = empty_contour_polygon)) = some false
    ∧ (difference segment_c segment_c).map
        (fun r => r.polygon.contours.isEmpty) = some false := by
  constructor
  · with_unfolding_all decide
  · with_unfolding_all decide

/-- C6 (amended): `intersection(A, ∅) = ∅` holds for every polygon;
`union(A, ∅).polygon = A` holds whenever `A` has at least one vertex,
while vertex-less `A` (even with empty contours) yields the empty result;
and `difference(A, A) = ∅` holds for vertex-less `A` (for `A` with
vertices it holds on the validated non-degenerate examples but fails for
doubled segments, per the counterexample). -/
theorem c6_identities_amended (A : Polygon) :
    intersection A empty_polygon = some empty_result
    ∧ (A.compute_bounds.isSome = true →
        ∃ r, union A empty_polygon = some r ∧ r.polygon = A)
    ∧ (A.compute_bounds = none →
        difference A A = some empty_result
        ∧ union A empty_polygon = some empty_result) := by
  have hemp : empty_polygon.compute_bounds = none := rfl
  refine ⟨?_, ?_, ?_⟩
  · unfold intersection
    cases hA : A.compute_bounds <;>
      simp [perform_boolean, hA, hemp, empty_result]
  · intro hs
    obtain ⟨b, hA⟩ := Option.isSome_iff_exists.mp hs
    refine ⟨polygon_to_boolean_result A true, ?_, rfl⟩
    unfold union
    simp [perform_boolean, hA, hemp]
  · intro hA
    constructor
    · unfold difference
      simp [perform_boolean, hA, empty_result]
    · unfold union
      simp [perform_boolean, hA, hemp, empty_result]

/-- Witness for C6: the amended statement applied at a one-point polygon
and at a polygon with one empty contour. -/
theorem c6_identities_amended_witness :
    (∃ r, union point_polygon empty_polygon = some r
        ∧ r.polygon = point_polygon)
    ∧ difference empty_contour_polygon empty_contour_polygon
        = some empty_result :=
  ⟨(c6_identities_amended point_polygon).2.1 (by with_unfolding_all decide),
    ((c6_identities_amended empty_contour_polygon).2.2
      (by with_unfolding_all decide)).1⟩

/-! ## Claim C7 -/

/-- C7 (counterexample): a well-formed input (finite coordinates) whose
contour is a single point passes through the trivial bounding-box path
verbatim, so the result has a contour with fewer than three points (and
its wraparound "edge" joins equal points), contrary to the claim. -/
theorem c7_contour_wellformedness_counterexample :
    (union point_polygon empty_polygon).map
      (fun r => r.polygon.contours.all good_contour) = some false := by
  with_unfolding_all decide

/-- C7 (amended): on the trivial bounding-box path (one polygon without
vertices, or strictly disjoint boxes) contours are copied verbatim, so
the property transfers from the inputs: if every input contour has at
least three points with distinct consecutive points (wraparound
included), then so does every result contour. The original claim fails
because degenerate input contours are copied unchanged. -/
theorem c7_contour_wellformedness_amended (subject clip : Polygon)
    (operation : Operation) (r : BooleanResult)
    (htriv : takes_trivial_path subject clip = true)
    (hs : subject.contours.all good_contour = true)
    (hc : clip.contours.all good_contour = true)
    (hr : perform_boolean subject clip operation = some r) :
    r.polygon.contours.all good_contour = true := by
  unfold takes_trivial_path at htriv
  unfold perform_boolean at hr
  cases hsb : subject.compute_bounds with
  | none =>
    cases hcb : clip.compute_bounds with
    | none =>
      rw [hsb, hcb] at hr
      simp only [Option.some.injEq] at hr
      subst hr
      rfl
    | some bc =>
      rw [hsb, hcb] at hr
      by_cases hop : operation = Operation.Intersection
          ∨ operation = Operation.Difference
      · rw [if_pos hop] at hr
        simp only [Option.some.injEq] at hr
        subst hr
        rfl
      · rw [if_neg hop] at hr
        simp only [Option.some.injEq] at hr
        subst hr
        exact hc
  | some bs =>
    cases hcb : clip.compute_bounds with
    | none =>
      rw [hsb, hcb] at hr
      by_cases hop : operation = Operation.Intersection
      · rw [if_pos hop] at hr
        simp only [Option.some.injEq] at hr
        subst hr
        rfl
      · rw [if_neg hop] at hr
        simp only [Option.some.injEq] at hr
        subst hr
        exact hs
    | some bc =>
      obtain ⟨subject_min, subject_max⟩ := bs
      obtain ⟨clip_min, clip_max⟩ := bc
      rw [hsb, hcb] at htriv hr
      simp only at htriv hr
      rw [if_pos (of_decide_eq_true htriv)] at hr
      cases operation with
      | Intersection =>
        simp only [Option.some.injEq] at hr
        subst hr
        rfl
      | Difference =>
        simp only [Option.some.injEq] at hr
        subst hr
        exact hs
      | Union =>
        simp only [Option.some.injEq] at hr
        subst hr
        simp only [polygon_to_boolean_result, List.all_append]
        rw [hs, hc]
        rfl
      | XOR =>
        simp only [Option.some.injEq] at hr
        subst hr
        simp only [polygon_to_boolean_result, List.all_append]
        rw [hs, hc]
        rfl

/-- Witness for C7 at two strictly disjoint triangles. -/
theorem c7_contour_wellformedness_amended_witness :
    (Polygon.mk (tri_low.contours ++ tri_high.contours)).contours.all
      good_contour = true :=
  c7_contour_wellformedness_amended tri_low tri_high Operation.Union
    ⟨⟨tri_low.contours ++ tri_high.contours⟩,
      (polygon_to_boolean_result tri_low true).contour_source_edges
        ++ (polygon_to_boolean_result tri_high false).contour_source_edges⟩
    (by with_unfolding_all decide) (by with_unfolding_all decide)
    (by with_unfolding_all decide) (by with_unfolding_all decide)

/-! ## Claim C10 -/

/-- C10: when both polygons have vertices and their bounding boxes pass
the strict disjointness test, union and xor return exactly the subject's
contours followed by the clip's contours, copied verbatim (empty contours
included, nothing normalized), with the tag for edge `j` of original
contour `i` being `{is_from_subject, contour := i, edge := j}`. -/
theorem c10_disjoint_fast_path (subject clip : Polygon)
    (operation : Operation)
    (subject_min subject_max clip_min clip_max : Vec2)
    (hs : subject.compute_bounds = some (subject_min, subject_max))
    (hc : clip.compute_bounds = some (clip_min, clip_max))
    (hdisj : subject_max.x < clip_min.x ∨ subject_max.y < clip_min.y
      ∨ clip_max.x < subject_min.x ∨ clip_max.y < subject_min.y)
    (hop : operation = Operation.Union ∨ operation = Operation.XOR) :
    perform_boolean subject clip operation
      = some ⟨⟨subject.contours ++ clip.contours⟩,
          subject.contours.enum.map (fun p =>
            (List.range p.2.length).map
              (fun j => ⟨true, p.1, j⟩))
          ++ clip.contours.enum.map (fun p =>
            (List.range p.2.length).map
              (fun j => ⟨false, p.1, j⟩))⟩ := by
  unfold perform_boolean
  rw [hs, hc]
  simp only
  rw [if_pos hdisj]
  rcases hop with h | h <;> subst h <;> rfl

/-- Witness for C10 at two strictly disjoint triangles. -/
theorem c10_disjoint_fast_path_witness :
    perform_boolean tri_low tri_high Operation.XOR
      = some ⟨⟨tri_low.contours ++ tri_high.contours⟩,
          tri_low.contours.enum.map (fun p =>
            (List.range p.2.length).map
              (fun j => ⟨true, p.1, j⟩))
          ++ tri_high.contours.enum.map (fun p =>
            (List.range p.2.length).map
              (fun j => ⟨false, p.1, j⟩))⟩ :=
  c10_disjoint_fast_path tri_low tri_high Operation.XOR
    ⟨0, 0⟩ ⟨1, 1⟩ ⟨5, 5⟩ ⟨6, 6⟩
    (by with_unfolding_all decide) (by with_unfolding_all decide)
    (Or.inl (by norm_num)) (Or.inr rfl)

end PolyClip
